import Mathlib

/-!
Shallow embedding of the chess rules engine in `chess_game.py`.

Squares are `(row, column)` pairs of integers (row 0 is black's back rank).
The board is an 8×8 grid of optional pieces, represented as a list of rows.
Python list indexing is modelled faithfully: an index `i` with `-8 ≤ i < 0`
wraps to `8 + i`, and an index outside `[-8, 8)` raises `IndexError`,
modelled by `Except Unit` (the `Unit` error stands for an uncaught Python
exception).  Pieces do not carry their `position` attribute: the source
keeps `piece.position` synchronized with the board slot holding the piece,
so the slot coordinates are passed explicitly to the move generators.
-/

namespace Chess

inductive Color where
  | white
  | black
deriving DecidableEq

def Color.other : Color → Color
  | .white => .black
  | .black => .white

inductive Kind where
  | pawn
  | rook
  | knight
  | bishop
  | queen
  | king
deriving DecidableEq

/-- A piece as in the source: color, kind, and the two pawn-only flags
(`has_moved`, `en_passant_vulnerable`).  Non-pawns never read the flags. -/
structure Piece where
  color : Color
  kind : Kind
  hasMoved : Bool := false
  enPassantVulnerable : Bool := false
deriving DecidableEq

abbrev Sq := Int × Int

abbrev Board := List (List (Option Piece))

/-- Read `board[r][c]` at indices already known (checked in the source) to be
in `[0,8)`; out-of-range reads return `none` (never exercised under the
source's guards). -/
def cell (b : Board) (r c : Int) : Option Piece :=
  match b.get? r.toNat with
  | some row =>
    match row.get? c.toNat with
    | some x => x
    | none => none
  | none => none

/-- Python list index semantics for an 8-element list: `0 ≤ i < 8` is used
directly, `-8 ≤ i < 0` wraps to `8 + i`, anything else raises `IndexError`. -/
def pyIdx8 (i : Int) : Except Unit Nat :=
  if 0 ≤ i ∧ i < 8 then .ok i.toNat
  else if -8 ≤ i ∧ i < 0 then .ok (i + 8).toNat
  else .error ()

/-- `board[r][c]` with full Python indexing semantics (wraparound / fault). -/
def pyCell (b : Board) (r c : Int) : Except Unit (Option Piece) := do
  let rn ← pyIdx8 r
  let cn ← pyIdx8 c
  match b.get? rn with
  | some row =>
    match row.get? cn with
    | some x => .ok x
    | none => .error ()
  | none => .error ()

/-- `board[r][c] = v` with Python indexing semantics. -/
def pySet (b : Board) (r c : Int) (v : Option Piece) : Except Unit Board := do
  let rn ← pyIdx8 r
  let cn ← pyIdx8 c
  match b.get? rn with
  | some row =>
    if cn < row.length then .ok (b.set rn (row.set cn v))
    else .error ()
  | none => .error ()

/-- `Pawn.get_valid_moves`, forward-move block: single step if the square one
rank ahead is in bounds and empty; additionally the two-rank step if the pawn
has not moved and `board[row + 2*direction][col]` is empty — that lookup is
not bounds-checked in the source, hence the Python indexing semantics. -/
def pawnDirection (p : Piece) : Int :=
  if p.color = Color.white then -1 else 1

def pawnForward (p : Piece) (r c : Int) (b : Board) : Except Unit (List Sq) :=
  if 0 ≤ r + pawnDirection p ∧ r + pawnDirection p < 8 then
    match cell b (r + pawnDirection p) c with
    | some _ => .ok []
    | none =>
      if p.hasMoved = false then do
        let o ← pyCell b (r + 2 * pawnDirection p) c
        match o with
        | none => .ok [(r + pawnDirection p, c), (r + 2 * pawnDirection p, c)]
        | some _ => .ok [(r + pawnDirection p, c)]
      else .ok [(r + pawnDirection p, c)]
  else .ok []

/-- `Pawn.get_valid_moves`, diagonal block for one column offset `dcol`:
capture if the diagonal square ahead holds an opposing piece; otherwise
(diagonal square empty) the en passant clause fires when the pawn is on row 3
(white) or row 4 (black) and the square beside it holds a pawn whose
`en_passant_vulnerable` flag is set — the source never checks that side
pawn's color. -/
def pawnSideMoves (p : Piece) (r c : Int) (b : Board) (dcol : Int) : List Sq :=
  if 0 ≤ r + pawnDirection p ∧ r + pawnDirection p < 8 ∧
      0 ≤ c + dcol ∧ c + dcol < 8 then
    match cell b (r + pawnDirection p) (c + dcol) with
    | some q => if q.color ≠ p.color then [(r + pawnDirection p, c + dcol)] else []
    | none =>
      if (r = 3 ∧ p.color = Color.white) ∨ (r = 4 ∧ p.color = Color.black) then
        match cell b r (c + dcol) with
        | some q =>
          if q.kind = Kind.pawn ∧ q.enPassantVulnerable = true then
            [(r + pawnDirection p, c + dcol)]
          else []
        | none => []
      else []
  else []

/-- One sliding direction of `_get_straight_moves` / `_get_diagonal_moves`:
the Python loop `for i in range(1, 8)` with `break` on the first occupied or
out-of-bounds square, including the occupied square only on capture. -/
def slideFrom (color : Color) (r c : Int) (b : Board) (dr dc : Int) :
    Nat → Int → List Sq
  | 0, _ => []
  | fuel + 1, i =>
    if 0 ≤ r + i * dr ∧ r + i * dr < 8 ∧ 0 ≤ c + i * dc ∧ c + i * dc < 8 then
      match cell b (r + i * dr) (c + i * dc) with
      | none => (r + i * dr, c + i * dc) :: slideFrom color r c b dr dc fuel (i + 1)
      | some q => if q.color ≠ color then [(r + i * dr, c + i * dc)] else []
    else []

def slide (color : Color) (r c : Int) (b : Board) (dr dc : Int) : List Sq :=
  slideFrom color r c b dr dc 7 1

/-- `Rook._get_straight_moves`: directions `(0,1), (1,0), (0,-1), (-1,0)`. -/
def straightMoves (color : Color) (r c : Int) (b : Board) : List Sq :=
  slide color r c b 0 1 ++ slide color r c b 1 0 ++
    slide color r c b 0 (-1) ++ slide color r c b (-1) 0

/-- `Bishop._get_diagonal_moves`: directions `(1,1), (1,-1), (-1,1), (-1,-1)`. -/
def diagonalMoves (color : Color) (r c : Int) (b : Board) : List Sq :=
  slide color r c b 1 1 ++ slide color r c b 1 (-1) ++
    slide color r c b (-1) 1 ++ slide color r c b (-1) (-1)

/-- Shared shape of `Knight.get_valid_moves` and `King.get_valid_moves`:
fixed offsets, destination valid if in bounds and not own-color occupied. -/
def stepTargets (color : Color) (r c : Int) (b : Board) :
    List (Int × Int) → List Sq
  | [] => []
  | off :: rest =>
    (if 0 ≤ r + off.1 ∧ r + off.1 < 8 ∧ 0 ≤ c + off.2 ∧ c + off.2 < 8 then
      match cell b (r + off.1) (c + off.2) with
      | none => [(r + off.1, c + off.2)]
      | some q => if q.color ≠ color then [(r + off.1, c + off.2)] else []
    else []) ++ stepTargets color r c b rest

def knightOffsets : List (Int × Int) :=
  [(-2, -1), (-2, 1), (-1, -2), (-1, 2), (1, -2), (1, 2), (2, -1), (2, 1)]

def kingOffsets : List (Int × Int) :=
  [(0, 1), (1, 0), (0, -1), (-1, 0), (1, 1), (1, -1), (-1, 1), (-1, -1)]

/-- `get_valid_moves`, dispatched on the piece kind, for the piece occupying
square `pos`.  The pawn case can fault (unchecked double-step lookup). -/
def getValidMoves (p : Piece) (pos : Sq) (b : Board) : Except Unit (List Sq) :=
  match p.kind with
  | .pawn => do
    let f ← pawnForward p pos.1 pos.2 b
    .ok (f ++ pawnSideMoves p pos.1 pos.2 b (-1) ++ pawnSideMoves p pos.1 pos.2 b 1)
  | .rook => .ok (straightMoves p.color pos.1 pos.2 b)
  | .bishop => .ok (diagonalMoves p.color pos.1 pos.2 b)
  | .queen => .ok (straightMoves p.color pos.1 pos.2 b ++ diagonalMoves p.color pos.1 pos.2 b)
  | .knight => .ok (stepTargets p.color pos.1 pos.2 b knightOffsets)
  | .king => .ok (stepTargets p.color pos.1 pos.2 b kingOffsets)

/-- The 64 squares in the row-major order of the source's nested
`for row in range(8): for col in range(8)` loops. -/
def allSquares : List (Int × Int) :=
  (List.range 8).foldr
    (fun r acc => ((List.range 8).map (fun c => ((r : Int), (c : Int)))) ++ acc) []

/-- `find_king`: first square (row-major) holding a king of the color;
`none` models Python's `None` when no king exists. -/
def findKingScan (color : Color) (b : Board) : List (Int × Int) → Option Sq
  | [] => none
  | (r, c) :: rest =>
    match cell b r c with
    | some p =>
      if p.kind = Kind.king ∧ p.color = color then some (r, c)
      else findKingScan color b rest
    | none => findKingScan color b rest

def findKing (color : Color) (b : Board) : Option Sq :=
  findKingScan color b allSquares

/-- `is_square_under_attack(square, color, board)`: scan all squares row-major
and test whether any opposing piece's `get_valid_moves` contains `square`.
A `none` target (missing king) is never a member, matching `None in moves`. -/
def attackScan (target : Option Sq) (color : Color) (b : Board) :
    List (Int × Int) → Except Unit Bool
  | [] => .ok false
  | (r, c) :: rest =>
    match cell b r c with
    | some p =>
      if p.color ≠ color then do
        let ms ← getValidMoves p (r, c) b
        match target with
        | some sq => if sq ∈ ms then .ok true else attackScan target color b rest
        | none => attackScan target color b rest
      else attackScan target color b rest
    | none => attackScan target color b rest

def isSquareUnderAttack (target : Option Sq) (color : Color) (b : Board) :
    Except Unit Bool :=
  attackScan target color b allSquares

/-- `move_causes_check`: place the piece on the destination of a copied board,
empty the origin, locate the mover's king and query the attack oracle.  Note
that an en-passant-captured pawn is **not** removed from the copy. -/
def moveCausesCheck (b : Board) (p : Piece) (pos m : Sq) : Except Unit Bool := do
  let t1 ← pySet b m.1 m.2 (some p)
  let t2 ← pySet t1 pos.1 pos.2 none
  isSquareUnderAttack (findKing p.color t2) p.color t2

/-- The filtering loop of `get_legal_moves`: keep each candidate whose
simulated application does not leave the mover's king attacked. -/
def filterLegal (b : Board) (p : Piece) (pos : Sq) :
    List Sq → Except Unit (List Sq)
  | [] => .ok []
  | m :: rest => do
    let chk ← moveCausesCheck b p pos m
    let others ← filterLegal b p pos rest
    if chk then .ok others else .ok (m :: others)

/-- `get_legal_moves` for the piece `p` occupying `pos`. -/
def getLegalMoves (b : Board) (pos : Sq) (p : Piece) : Except Unit (List Sq) := do
  let potential ← getValidMoves p pos b
  filterLegal b p pos potential

/-- `game_result` messages.  The source stores formatted strings
(`"Black wins by checkmate!"` and so on); each string is in bijection with a
winner/reason pair, modelled by this inductive. -/
inductive GameResult where
  | checkmateWin (winner : Color)
  | stalemateDraw
  | repetitionDraw
  | resignWin (winner : Color)
deriving DecidableEq

/-- A board snapshot as compared by `is_draw_by_repetition`.  The source
stores tuples of piece object references and compares them by object
identity; since pieces are mutated in place, two snapshots are equal exactly
when the same piece objects occupy the same squares, which the placement of
`(color, kind)` captures (the mutable pawn flags never enter the identity
comparison). -/
abbrev Snapshot := List (List (Option (Color × Kind)))

def getCurrentPosition (b : Board) : Snapshot :=
  b.map (fun row => row.map (Option.map (fun p => (p.color, p.kind))))

/-- The game state fields of `ChessGame` relevant to the rules engine
(rendering-only fields such as `selected_piece`, `dragging`, `valid_moves`,
`player_color` and `board_flipped` are GUI state and out of scope).
`promotionPawn` models the `promotion_pawn` piece reference as the square it
occupies together with its color. -/
structure Game where
  board : Board
  turn : Color
  inCheckWhite : Bool
  inCheckBlack : Bool
  gameOver : Bool
  gameResult : Option GameResult
  positionHistory : List Snapshot
  lastMove : Option (Int × Int × Int × Int)
  promotionPawn : Option (Sq × Color)
deriving DecidableEq

/-- The `in_check` dictionary lookup. -/
def Game.inCheck (g : Game) : Color → Bool
  | .white => g.inCheckWhite
  | .black => g.inCheckBlack

/-- `is_in_check(color)` recomputed from the board. -/
def isInCheck (b : Board) (color : Color) : Except Unit Bool :=
  isSquareUnderAttack (findKing color b) color b

/-- `update_check_status`. -/
def updateCheckStatus (g : Game) : Except Unit Game := do
  let w ← isInCheck g.board Color.white
  let bl ← isInCheck g.board Color.black
  .ok { g with inCheckWhite := w, inCheckBlack := bl }

/-- The scan of `has_no_legal_moves`: row-major over all squares, returning
`false` at the first own-color piece with a nonempty legal-move list. -/
def noMovesScan (b : Board) (color : Color) :
    List (Int × Int) → Except Unit Bool
  | [] => .ok true
  | (r, c) :: rest =>
    match cell b r c with
    | some p =>
      if p.color = color then do
        let l ← getLegalMoves b (r, c) p
        if l.isEmpty then noMovesScan b color rest else .ok false
      else noMovesScan b color rest
    | none => noMovesScan b color rest

def hasNoLegalMoves (b : Board) (color : Color) : Except Unit Bool :=
  noMovesScan b color allSquares

/-- `is_checkmate`: reads the stored `in_check` flag, then the no-moves scan. -/
def isCheckmate (g : Game) (color : Color) : Except Unit Bool :=
  if g.inCheck color = false then .ok false
  else hasNoLegalMoves g.board color

/-- `is_stalemate`: not in check (stored flag) and no legal moves. -/
def isStalemate (g : Game) (color : Color) : Except Unit Bool :=
  if g.inCheck color = true then .ok false
  else hasNoLegalMoves g.board color

/-- `is_draw_by_repetition`: `False` below 8 recorded positions, else some
snapshot occurring at least 3 times across the history. -/
def isDrawByRepetition (g : Game) : Bool :=
  if g.positionHistory.length < 8 then false
  else g.positionHistory.any (fun p => 3 ≤ g.positionHistory.count p)

/-- `update_game_over`: checkmate, then stalemate, then repetition, each
evaluated for `self.turn`. -/
def updateGameOver (g : Game) : Except Unit Game := do
  let cm ← isCheckmate g g.turn
  if cm then
    .ok { g with gameOver := true, gameResult := some (.checkmateWin g.turn.other) }
  else do
    let sm ← isStalemate g g.turn
    if sm then
      .ok { g with gameOver := true, gameResult := some .stalemateDraw }
    else if isDrawByRepetition g then
      .ok { g with gameOver := true, gameResult := some .repetitionDraw }
    else .ok g

/-- `update_position_history`. -/
def updatePositionHistory (g : Game) : Game :=
  { g with positionHistory := g.positionHistory ++ [getCurrentPosition g.board] }

/-- Clear `en_passant_vulnerable` on every pawn of `color` except the piece
at square `e` (the just-moved piece; object identity in the source). -/
def resetVulnerability (b : Board) (color : Color) (e : Sq) : Board :=
  b.enum.map (fun rc =>
    rc.2.enum.map (fun cc =>
      match cc.2 with
      | some q =>
        if q.kind = Kind.pawn ∧ q.color = color ∧
            ¬((rc.1 : Int) = e.1 ∧ (cc.1 : Int) = e.2) then
          some { q with enPassantVulnerable := false }
        else some q
      | none => none))

/-- The move request interface: `select_piece` (piece present, mover's turn,
legal moves computed) followed by `move_piece(end_pos)`.  Returns the
`move_piece` boolean together with the updated game; both rejection branches
leave the game untouched. -/
def movePiece (g : Game) (s e : Sq) : Except Unit (Bool × Game) :=
  match cell g.board s.1 s.2 with
  | none => .ok (false, g)
  | some p =>
    if p.color ≠ g.turn then .ok (false, g)
    else do
      let legal ← getLegalMoves g.board s p
      if e ∈ legal then do
        let b1 ← do
          let occ ← pyCell g.board e.1 e.2
          if p.kind = Kind.pawn ∧ e.2 ≠ s.2 ∧ occ = none then
            pySet g.board s.1 e.2 none
          else .ok g.board
        let b2 ← pySet b1 e.1 e.2 (some p)
        let b3 ← pySet b2 s.1 s.2 none
        if p.kind = Kind.pawn ∧ (e.1 = 0 ∨ e.1 = 7) then
          .ok (true, { g with board := b3, promotionPawn := some (e, p.color) })
        else do
          let pMoved :=
            if p.kind = Kind.pawn then
              { p with hasMoved := true,
                       enPassantVulnerable := decide ((s.1 - e.1).natAbs = 2) }
            else p
          let b4 ← pySet b3 e.1 e.2 (some pMoved)
          let b5 := resetVulnerability b4 p.color e
          let g1 := { g with board := b5,
                             lastMove := some (s.1, s.2, e.1, e.2),
                             turn := g.turn.other }
          let g2 ← updateCheckStatus g1
          let g3 ← updateGameOver g2
          .ok (true, updatePositionHistory g3)
      else .ok (false, g)

/-- `promote_pawn(piece_class)`: with no pending promotion the source
dereferences `None` and raises `AttributeError` (modelled as `.error`);
otherwise the pending pawn's square is overwritten with a fresh piece of the
chosen kind and color, then check status, game-over and history are updated —
the turn is never flipped. -/
def promotePawn (g : Game) (k : Kind) : Except Unit Game :=
  match g.promotionPawn with
  | none => .error ()
  | some pc => do
    let b1 ← pySet g.board pc.1.1 pc.1.2 (some { color := pc.2, kind := k })
    let g1 := { g with board := b1, promotionPawn := none }
    let g2 ← updateCheckStatus g1
    let g3 ← updateGameOver g2
    .ok (updatePositionHistory g3)

/-- `resign`: unconditionally set `game_over` and overwrite `game_result`
with the opponent of the current turn winning by resignation. -/
def resign (g : Game) : Game :=
  { g with gameOver := true, gameResult := some (.resignWin g.turn.other) }

/-- Piece literals for the starting arrangement. -/
def mk (c : Color) (k : Kind) : Option Piece := some { color := c, kind := k }

/-- `_initialize_pieces`: pawns on rows 1 (black) and 6 (white); the
rook–knight–bishop–queen–king–bishop–knight–rook order on rows 0 and 7. -/
def initBoard : Board :=
  [ [mk .black .rook, mk .black .knight, mk .black .bishop, mk .black .queen,
     mk .black .king, mk .black .bishop, mk .black .knight, mk .black .rook],
    (List.replicate 8 (mk .black .pawn)),
    (List.replicate 8 none),
    (List.replicate 8 none),
    (List.replicate 8 none),
    (List.replicate 8 none),
    (List.replicate 8 (mk .white .pawn)),
    [mk .white .rook, mk .white .knight, mk .white .bishop, mk .white .queen,
     mk .white .king, mk .white .bishop, mk .white .knight, mk .white .rook] ]

/-- A fresh `ChessGame`: starting board, white to move, empty history. -/
def initGame : Game :=
  { board := initBoard
    turn := Color.white
    inCheckWhite := false
    inCheckBlack := false
    gameOver := false
    gameResult := none
    positionHistory := []
    lastMove := none
    promotionPawn := none }

/-- Play a list of `(from, to)` move requests, requiring each to be accepted
(an accepted move is exactly one whose destination is in the filtered
legal-move set of the selected piece). -/
def applyScript : Game → List (Sq × Sq) → Except Unit Game
  | g, [] => .ok g
  | g, (s, e) :: rest => do
    let r ← movePiece g s e
    if r.1 then applyScript r.2 rest else .error ()

/-- Sum of `get_legal_moves` lengths over every piece of the given color
(restricted to one kind when `k?` is set), scanning row-major. -/
def countScan (b : Board) (color : Color) (k? : Option Kind) :
    List (Int × Int) → Except Unit Nat
  | [] => .ok 0
  | (r, c) :: rest =>
    match cell b r c with
    | some p =>
      if p.color = color ∧ (k? = none ∨ k? = some p.kind) then do
        let l ← getLegalMoves b (r, c) p
        let n ← countScan b color k? rest
        .ok (l.length + n)
      else countScan b color k? rest
    | none => countScan b color k? rest

def countLegalMoves (b : Board) (color : Color) (k? : Option Kind) :
    Except Unit Nat :=
  countScan b color k? allSquares

/-- A reachable game in which the legality filter accepts an en passant
capture that exposes the mover's king along the fifth rank: white walks the
king to e5 behind the f5 pawn while black posts a rook on h5; black's
`g7-g5` then offers `f5xg6` en passant, whose simulation keeps the captured
g5 pawn on the board (blocking the rook) even though the real application
removes it. -/
def epPinScript : List (Sq × Sq) :=
  [ ((6, 5), (4, 5)),   -- white f2-f4
    ((1, 7), (3, 7)),   -- black h7-h5
    ((4, 5), (3, 5)),   -- white f4-f5
    ((3, 7), (4, 7)),   -- black h5-h4
    ((7, 4), (6, 5)),   -- white Ke1-f2
    ((0, 7), (3, 7)),   -- black Rh8-h5
    ((6, 5), (5, 5)),   -- white Kf2-f3
    ((0, 1), (2, 0)),   -- black Nb8-a6
    ((5, 5), (4, 4)),   -- white Kf3-e4
    ((2, 0), (0, 1)),   -- black Na6-b8
    ((4, 4), (3, 4)),   -- white Ke4-e5
    ((1, 6), (3, 6)),   -- black g7-g5 (two-rank advance, en passant vulnerable)
    ((3, 5), (2, 6)) ]  -- white f5xg6 en passant

/-- Fool's mate: two moves per side ending in checkmate of white. -/
def foolsMateScript : List (Sq × Sq) :=
  [ ((6, 5), (5, 5)),   -- white f2-f3
    ((1, 4), (3, 4)),   -- black e7-e5
    ((6, 6), (4, 6)),   -- white g2-g4
    ((0, 3), (4, 7)) ]  -- black Qd8-h4 mate

/-- An empty board row. -/
def e8 : List (Option Piece) := List.replicate 8 none

/-- Board for the C4 counterexample: a white pawn on `(3,4)` beside a
*white* pawn on `(3,5)` whose `en_passant_vulnerable` flag is set. -/
def sameColorEpBoard : Board :=
  [ e8, e8, e8,
    [none, none, none, none,
     some { color := .white, kind := .pawn, hasMoved := true },
     some { color := .white, kind := .pawn, hasMoved := true,
            enPassantVulnerable := true },
     none, none, none],
    e8, e8, e8,
    [none, none, none, none, mk .white .king, none, none, none] ]

/-- Board for the C4 amended-claim witness: the side pawn is black. -/
def oppColorEpBoard : Board :=
  [ e8, e8, e8,
    [none, none, none, none,
     some { color := .white, kind := .pawn, hasMoved := true },
     some { color := .black, kind := .pawn, hasMoved := true,
            enPassantVulnerable := true },
     none, none, none],
    e8, e8, e8,
    [none, none, none, none, mk .white .king, none, none, none] ]

/-- Board for the C6 counterexample: a white pawn on `(1,0)` that has never
moved, with `(0,0)` and `(7,0)` empty, so the unchecked two-rank lookup
`board[-1][0]` wraps to row 7 and the destination `(-1, 0)` is emitted. -/
def wrapPawnBoard : Board :=
  [ e8,
    [some { color := .white, kind := .pawn }, none, none, none,
     none, none, none, none],
    e8, e8, e8, e8, e8, e8 ]

/-- Game for the C2/C3 promotion demonstrations: a white pawn one step from
promotion on `(1,0)`, kings on `(7,4)` and `(2,6)`. -/
def prePromotionGame : Game :=
  { board :=
      [ e8,
        [some { color := .white, kind := .pawn, hasMoved := true }, none,
         none, none, none, none, none, none],
        [none, none, none, none, none, none, mk .black .king, none],
        e8, e8, e8, e8,
        [none, none, none, none, mk .white .king, none, none, none] ]
    turn := Color.white
    inCheckWhite := false
    inCheckBlack := false
    gameOver := false
    gameResult := none
    positionHistory := []
    lastMove := none
    promotionPawn := none }

/-- Move the pawn of `prePromotionGame` to the last rank (the request is
accepted and leaves the game awaiting a promotion choice), then resolve the
promotion to a queen. -/
def promotionDemo : Except Unit Game := do
  let r ← movePiece prePromotionGame (1, 0) (0, 0)
  promotePawn r.2 Kind.queen

/-- `get_legal_moves` as a state transformer over the committed game: the
source method reads only `self.board` (each candidate's hypothetical board
is a fresh copy of the rows), assigns no attribute of `self` or of any
piece, and returns just the move list, so its transcription pairs the result
with the unchanged game. -/
def getLegalMovesSt (g : Game) (s : Sq) (p : Piece) :
    Except Unit (List Sq) × Game :=
  (getLegalMoves g.board s p, g)

/-- A never-moved white pawn, as placed by `_initialize_pieces`. -/
def whitePawn : Piece := { color := .white, kind := .pawn }

/-- A white knight, as placed by `_initialize_pieces`. -/
def whiteKnight : Piece := { color := .white, kind := .knight }

/-- A white pawn that has already moved. -/
def wPawnMoved : Piece := { color := .white, kind := .pawn, hasMoved := true }

theorem ok_bind {α β : Type} (a : α) (f : α → Except Unit β) :
    (Except.ok a >>= f) = f a := rfl

theorem error_bind {α β : Type} (f : α → Except Unit β) :
    ((Except.error () : Except Unit α) >>= f) = Except.error () := rfl

/-- Every move kept by the legality-filter loop was simulated and found not
to leave the mover's king attacked. -/
theorem filterLegal_mem (b : Board) (p : Piece) (pos : Sq) :
    ∀ (l res : List Sq), filterLegal b p pos l = .ok res → ∀ m ∈ res,
      moveCausesCheck b p pos m = .ok false := by
  intro l
  induction l with
  | nil =>
    intro res h m hm
    simp only [filterLegal] at h
    cases h
    cases hm
  | cons a rest ih =>
    intro res h m hm
    simp only [filterLegal] at h
    cases h1 : moveCausesCheck b p pos a with
    | error u => rw [h1, error_bind] at h; cases h
    | ok chk =>
      rw [h1, ok_bind] at h
      cases h2 : filterLegal b p pos rest with
      | error u => rw [h2, error_bind] at h; cases h
      | ok others =>
        rw [h2, ok_bind] at h
        cases chk with
        | true =>
          rw [if_pos rfl] at h
          cases h
          exact ih res h2 m hm
        | false =>
          rw [if_neg (by simp)] at h
          cases h
          cases hm with
          | head => exact h1
          | tail _ hmem => exact ih others h2 m hmem

/-- C1 (amended): every destination accepted into the filtered legal-move
set passes the filter's own simulation — the mover's king is not attacked on
the hypothetical board in which the piece is relocated and any destination
occupant removed (but an en-passant-captured pawn is not removed). -/
theorem c1_amended (b : Board) (pos : Sq) (p : Piece) (l : List Sq) (m : Sq)
    (h : getLegalMoves b pos p = .ok l) (hm : m ∈ l) :
    moveCausesCheck b p pos m = .ok false := by
  simp only [getLegalMoves] at h
  cases h1 : getValidMoves p pos b with
  | error u => rw [h1, error_bind] at h; cases h
  | ok potential =>
    rw [h1, ok_bind] at h
    exact filterLegal_mem b p pos potential l h m hm

/-- Witness for `c1_amended`: the accepted opening move a2-a3. -/
theorem c1_amended_witness :
    moveCausesCheck initGame.board whitePawn (6, 0) (5, 0) = .ok false :=
  c1_amended initGame.board (6, 0) whitePawn [(5, 0), (4, 0)] (5, 0) rfl
    (by decide)

/-- C1 (counterexample): a game reachable from the initial position in which
the accepted move `f5xg6` en passant leaves the mover's own king attacked on
the real board.  `applyScript` only succeeds when every scripted move is
accepted as legal; after the final move the stored check flag for white (the
mover, since the turn has flipped to black) is true, and the last move
recorded is the en passant capture `(3,5) → (2,6)`. -/
theorem c1_counterexample :
    Except.map (fun g => (g.inCheckWhite, g.turn, g.lastMove, g.gameOver))
        (applyScript initGame epPinScript) =
      .ok (true, Color.black, some (3, 5, 2, 6), false) := rfl

/-- C2 (code bug): moving the pawn of `prePromotionGame` onto the last rank
is accepted and leaves the game awaiting a promotion choice with the turn
still white and nothing recorded in the history; resolving the promotion
places the chosen queen and appends one snapshot, but the turn is *still*
white — `promote_pawn` never flips it, contradicting step 6 of the spec and
strict turn alternation. -/
theorem c2_promotion_turn_bug :
    Except.map
        (fun r => (r.1, r.2.turn, r.2.promotionPawn, r.2.positionHistory.length))
        (movePiece prePromotionGame (1, 0) (0, 0)) =
      .ok (true, Color.white, some ((0, 0), Color.white), 0) ∧
    Except.map
        (fun g => (g.turn, cell g.board 0 0, g.positionHistory.length,
          g.promotionPawn))
        promotionDemo =
      .ok (Color.white, some { color := Color.white, kind := Kind.queen }, 1,
        none) :=
  ⟨rfl, rfl⟩

/-- C3 (counterexample): calling the promotion resolution on the initial
game, where no promotion is pending, faults (the source dereferences `None`
and raises `AttributeError`) instead of returning an ordinary rejection. -/
theorem c3_counterexample :
    promotePawn initGame Kind.queen = .error () := rfl

/-- C3 (amended): whenever no promotion is pending, `promote_pawn` raises an
uncaught `AttributeError` (modelled as the error result) before any state
change; it is a program-ending fault, not an ordinary rejection value. -/
theorem c3_amended (g : Game) (k : Kind) (h : g.promotionPawn = none) :
    promotePawn g k = .error () := by
  simp only [promotePawn, h]

/-- Witness for `c3_amended` at the initial game. -/
theorem c3_amended_witness :
    initGame.promotionPawn = none ∧ promotePawn initGame Kind.rook = .error () :=
  ⟨rfl, c3_amended initGame Kind.rook rfl⟩

/-- C5 (counterexample): after fool's mate the game is over with a checkmate
result for black, yet calling `resign` on this already-over game overwrites
the recorded result with a resignation result — the state is not immutable
once game-over is set. -/
theorem c5_counterexample :
    Except.map
        (fun g => (g.gameOver, g.gameResult, (resign g).gameOver,
          (resign g).gameResult))
        (applyScript initGame foolsMateScript) =
      .ok (true, some (GameResult.checkmateWin Color.black), true,
        some (GameResult.resignWin Color.black)) ∧
    some (GameResult.checkmateWin Color.black) ≠
      some (GameResult.resignWin Color.black) :=
  ⟨rfl, by decide⟩

/-- C5 (amended): `resign` unconditionally transitions to game-over with the
opponent of the current turn winning by resignation and leaves every other
field unchanged; on an already-over game the flag is unchanged but the
recorded result is overwritten, so it may change. -/
theorem c5_amended (g : Game) :
    (resign g).gameOver = true ∧
    (resign g).gameResult = some (GameResult.resignWin g.turn.other) ∧
    (resign g).board = g.board ∧
    (resign g).turn = g.turn ∧
    (resign g).inCheckWhite = g.inCheckWhite ∧
    (resign g).inCheckBlack = g.inCheckBlack ∧
    (resign g).positionHistory = g.positionHistory ∧
    (resign g).lastMove = g.lastMove ∧
    (resign g).promotionPawn = g.promotionPawn :=
  ⟨rfl, rfl, rfl, rfl, rfl, rfl, rfl, rfl, rfl⟩

/-- C6 (counterexample): a never-moved white pawn on `(1,0)` with rows 0 and
7 empty in its file: the unchecked two-rank lookup `board[-1][0]` wraps to
row 7 and the generator returns the out-of-bounds destination `(-1, 0)`. -/
theorem c6_counterexample :
    getValidMoves { color := Color.white, kind := Kind.pawn } (1, 0)
        wrapPawnBoard =
      .ok [(0, 0), (-1, 0)] ∧ ((-1 : Int) < 0) :=
  ⟨rfl, by decide⟩

/-- C9: the legality query is a pure read of the committed game: it returns
the game unchanged (board, piece flags, turn, check flags, history and all),
and its move list depends only on the board. -/
theorem c9_frame (g1 g2 : Game) (s : Sq) (p : Piece) (h : g1.board = g2.board) :
    (getLegalMovesSt g1 s p).2 = g1 ∧
    (getLegalMovesSt g1 s p).1 = (getLegalMovesSt g2 s p).1 := by
  refine ⟨rfl, ?_⟩
  simp only [getLegalMovesSt, h]

/-- Witness for `c9_frame`: two games sharing the initial board but with
different turn, check flags and history produce the same answer. -/
theorem c9_witness :
    (getLegalMovesSt initGame (6, 0) whitePawn).2 = initGame ∧
    (getLegalMovesSt initGame (6, 0) whitePawn).1 =
      (getLegalMovesSt
        { initGame with turn := Color.black, inCheckWhite := true,
                        positionHistory := [getCurrentPosition initBoard] }
        (6, 0) whitePawn).1 :=
  c9_frame initGame
    { initGame with turn := Color.black, inCheckWhite := true,
                    positionHistory := [getCurrentPosition initBoard] }
    (6, 0) whitePawn rfl

theorem pyIdx8_range (i : Int) (n : Nat) (h : pyIdx8 i = .ok n) :
    (0 ≤ i ∧ i < 8) ∨ (-8 ≤ i ∧ i < 0) := by
  unfold pyIdx8 at h
  split at h
  · rename_i hin
    exact Or.inl hin
  · split at h
    · rename_i hneg
      exact Or.inr hneg
    · cases h

theorem pyCell_row_range (b : Board) (r c : Int) (o : Option Piece)
    (h : pyCell b r c = .ok o) : (0 ≤ r ∧ r < 8) ∨ (-8 ≤ r ∧ r < 0) := by
  unfold pyCell at h
  cases hpi : pyIdx8 r with
  | error u => rw [hpi, error_bind] at h; cases h
  | ok n => exact pyIdx8_range r n hpi

/-- Destinations produced by one sliding direction are in bounds (the loop
breaks before any out-of-bounds square). -/
theorem slideFrom_bounds (color : Color) (r c : Int) (b : Board) (dr dc : Int) :
    ∀ (fuel : Nat) (i : Int) (m : Sq), m ∈ slideFrom color r c b dr dc fuel i →
      0 ≤ m.1 ∧ m.1 < 8 ∧ 0 ≤ m.2 ∧ m.2 < 8 := by
  intro fuel
  induction fuel with
  | zero => intro i m hm; cases hm
  | succ n ih =>
    intro i m hm
    unfold slideFrom at hm
    split at hm
    · rename_i hb
      split at hm
      · cases hm with
        | head => exact ⟨hb.1, hb.2.1, hb.2.2.1, hb.2.2.2⟩
        | tail _ hmem => exact ih (i + 1) m hmem
      · split at hm
        · cases hm with
          | head => exact ⟨hb.1, hb.2.1, hb.2.2.1, hb.2.2.2⟩
          | tail _ hmem => cases hmem
        · cases hm
    · cases hm

/-- Destinations produced by an offset table are in bounds. -/
theorem stepTargets_bounds (color : Color) (r c : Int) (b : Board) :
    ∀ (offs : List (Int × Int)) (m : Sq), m ∈ stepTargets color r c b offs →
      0 ≤ m.1 ∧ m.1 < 8 ∧ 0 ≤ m.2 ∧ m.2 < 8 := by
  intro offs
  induction offs with
  | nil => intro m hm; cases hm
  | cons o rest ih =>
    intro m hm
    unfold stepTargets at hm
    rw [List.mem_append] at hm
    cases hm with
    | inl hin =>
      split at hin
      · rename_i hb
        split at hin
        · cases hin with
          | head => exact ⟨hb.1, hb.2.1, hb.2.2.1, hb.2.2.2⟩
          | tail _ h2 => cases h2
        · split at hin
          · cases hin with
            | head => exact ⟨hb.1, hb.2.1, hb.2.2.1, hb.2.2.2⟩
            | tail _ h2 => cases h2
          · cases hin
      · cases hin
    | inr hin => exact ih m hin

/-- Characterization of the diagonal pawn block: any member is the single
diagonal destination, it is in bounds, and when that destination square is
empty the en passant clause must have fired — the pawn stands on row 3
(white) or row 4 (black) and the square beside it holds a pawn with the
`en_passant_vulnerable` flag set (of either color). -/
theorem pawnSideMoves_mem (p : Piece) (r c : Int) (b : Board) (dcol : Int)
    (m : Sq) (hm : m ∈ pawnSideMoves p r c b dcol) :
    m = (r + pawnDirection p, c + dcol) ∧
    0 ≤ r + pawnDirection p ∧ r + pawnDirection p < 8 ∧
    0 ≤ c + dcol ∧ c + dcol < 8 ∧
    (cell b (r + pawnDirection p) (c + dcol) = none →
      ((r = 3 ∧ p.color = Color.white) ∨ (r = 4 ∧ p.color = Color.black)) ∧
      ∃ q, cell b r (c + dcol) = some q ∧ q.kind = Kind.pawn ∧
        q.enPassantVulnerable = true) := by
  unfold pawnSideMoves at hm
  split at hm
  · rename_i hb
    split at hm
    · rename_i q heq
      split at hm
      · cases hm with
        | head =>
          exact ⟨rfl, hb.1, hb.2.1, hb.2.2.1, hb.2.2.2,
            fun hnone => absurd (heq.symm.trans hnone) (by simp)⟩
        | tail _ h2 => cases h2
      · cases hm
    · rename_i heq
      split at hm
      · rename_i hrank
        split at hm
        · rename_i q heq2
          split at hm
          · rename_i hflag
            cases hm with
            | head =>
              exact ⟨rfl, hb.1, hb.2.1, hb.2.2.1, hb.2.2.2,
                fun _ => ⟨hrank, q, heq2, hflag.1, hflag.2⟩⟩
            | tail _ h2 => cases h2
          · cases hm
        · cases hm
      · cases hm
  · cases hm

/-- Characterization of the forward pawn block: members keep the pawn's
column; the row is the single step (inside the guard bounds) or the double
step, which requires the not-yet-moved flag and a successful Python lookup
of `board[row + 2*direction]` (in range or negative wraparound). -/
theorem pawnForward_mem (p : Piece) (r c : Int) (b : Board) (f : List Sq)
    (h : pawnForward p r c b = .ok f) : ∀ m ∈ f,
      m.2 = c ∧ (0 ≤ r + pawnDirection p ∧ r + pawnDirection p < 8) ∧
      (m.1 = r + pawnDirection p ∨
        (m.1 = r + 2 * pawnDirection p ∧ p.hasMoved = false ∧
          ((0 ≤ m.1 ∧ m.1 < 8) ∨ (-8 ≤ m.1 ∧ m.1 < 0)))) := by
  intro m hm
  unfold pawnForward at h
  split at h
  · rename_i hguard
    split at h
    · cases h
      cases hm
    · split at h
      · rename_i hmoved
        cases hpc : pyCell b (r + 2 * pawnDirection p) c with
        | error u => rw [hpc, error_bind] at h; cases h
        | ok o =>
          rw [hpc, ok_bind] at h
          have hrange := pyCell_row_range b (r + 2 * pawnDirection p) c o hpc
          cases o with
          | none =>
            cases h
            cases hm with
            | head => exact ⟨rfl, hguard, Or.inl rfl⟩
            | tail _ h2 =>
              cases h2 with
              | head => exact ⟨rfl, hguard, Or.inr ⟨rfl, hmoved, hrange⟩⟩
              | tail _ h3 => cases h3
          | some q =>
            cases h
            cases hm with
            | head => exact ⟨rfl, hguard, Or.inl rfl⟩
            | tail _ h2 => cases h2
      · cases h
        cases hm with
        | head => exact ⟨rfl, hguard, Or.inl rfl⟩
        | tail _ h2 => cases h2
  · cases h
    cases hm

/-- C4 (amended): a pawn's pseudo-legal move set contains a diagonal move
into an empty square only if the pawn is on rank index 3 (white) or 4
(black) and the square beside it on the same rank holds a pawn — of either
color, the source never checks it — whose en-passant-vulnerable flag is
set. -/
theorem c4_amended (b : Board) (p : Piece) (r c r2 c2 : Int) (l : List Sq)
    (hk : p.kind = Kind.pawn) (h : getValidMoves p (r, c) b = .ok l)
    (hm : (r2, c2) ∈ l) (hcol : c2 ≠ c) (hempty : cell b r2 c2 = none) :
    ((r = 3 ∧ p.color = Color.white) ∨ (r = 4 ∧ p.color = Color.black)) ∧
    ∃ q, cell b r c2 = some q ∧ q.kind = Kind.pawn ∧
      q.enPassantVulnerable = true := by
  simp only [getValidMoves, hk] at h
  cases hpf : pawnForward p r c b with
  | error u => rw [hpf, error_bind] at h; cases h
  | ok f =>
    rw [hpf, ok_bind] at h
    cases h
    rw [List.mem_append, List.mem_append] at hm
    rcases hm with (hin | hin) | hin
    · exact absurd (pawnForward_mem p r c b f hpf (r2, c2) hin).1 hcol
    · obtain ⟨hmk, -, -, -, -, hep⟩ := pawnSideMoves_mem p r c b (-1) (r2, c2) hin
      injection hmk with h1 h2
      subst h1
      subst h2
      exact hep hempty
    · obtain ⟨hmk, -, -, -, -, hep⟩ := pawnSideMoves_mem p r c b 1 (r2, c2) hin
      injection hmk with h1 h2
      subst h1
      subst h2
      exact hep hempty

/-- C4 (counterexample): on `sameColorEpBoard` the white pawn on `(3,4)` is
granted the en passant destination `(2,5)` — a diagonal move into an empty
square — although the pawn beside it on `(3,5)` is its *own* color, because
the source checks only that the side square holds a vulnerable pawn. -/
theorem c4_counterexample :
    Except.map (fun l => decide ((2, 5) ∈ l))
        (getValidMoves wPawnMoved (3, 4) sameColorEpBoard) = .ok true ∧
    cell sameColorEpBoard 2 5 = none ∧
    cell sameColorEpBoard 3 5 =
      some { color := Color.white, kind := Kind.pawn, hasMoved := true,
             enPassantVulnerable := true } ∧
    wPawnMoved.color = Color.white :=
  ⟨rfl, rfl, rfl, rfl⟩

/-- Witness for `c4_amended`: the genuine en passant situation on
`oppColorEpBoard`, where the vulnerable side pawn is black. -/
theorem c4_amended_witness :
    ((((3 : Int) = 3 ∧ Color.white = Color.white) ∨
        ((3 : Int) = 4 ∧ Color.white = Color.black)) ∧
      ∃ q, cell oppColorEpBoard 3 5 = some q ∧ q.kind = Kind.pawn ∧
        q.enPassantVulnerable = true) :=
  c4_amended oppColorEpBoard wPawnMoved 3 4 2 5 [(2, 4), (2, 5)] rfl rfl
    (by decide) (by decide) rfl

/-- C6 (amended): for a piece on an in-bounds square, every generated
destination has its column in `[0,8)` and its row in `[0,8)` as well, except
that a never-moved white pawn on row 1 may emit row `-1` through the
unchecked, negatively-wrapping two-rank lookup (the symmetric black case on
row 6 makes the generator fault instead of returning). -/
theorem c6_amended (p : Piece) (r c : Int) (b : Board) (l : List Sq) (m : Sq)
    (hr0 : 0 ≤ r) (hr8 : r < 8) (hc0 : 0 ≤ c) (hc8 : c < 8)
    (h : getValidMoves p (r, c) b = .ok l) (hm : m ∈ l) :
    (0 ≤ m.2 ∧ m.2 < 8) ∧
    ((0 ≤ m.1 ∧ m.1 < 8) ∨
      (m.1 = -1 ∧ p.kind = Kind.pawn ∧ p.color = Color.white ∧ r = 1 ∧
        p.hasMoved = false)) := by
  cases hk : p.kind with
  | pawn =>
    simp only [getValidMoves, hk] at h
    cases hpf : pawnForward p r c b with
    | error u => rw [hpf, error_bind] at h; cases h
    | ok f =>
      rw [hpf, ok_bind] at h
      cases h
      rw [List.mem_append, List.mem_append] at hm
      rcases hm with (hin | hin) | hin
      · obtain ⟨hcol, hguard, hrow⟩ := pawnForward_mem p r c b f hpf m hin
        refine ⟨by omega, ?_⟩
        cases hcolor : p.color with
        | white =>
          rw [pawnDirection, if_pos hcolor] at hguard hrow
          rcases hrow with hrow | ⟨hrow, hmoved, hrange⟩
          · exact Or.inl (by omega)
          · rcases hrange with hrange | hrange
            · exact Or.inl hrange
            · exact Or.inr ⟨by omega, rfl, rfl, by omega, hmoved⟩
        | black =>
          rw [pawnDirection, if_neg (by rw [hcolor]; simp)] at hguard hrow
          rcases hrow with hrow | ⟨hrow, hmoved, hrange⟩
          · exact Or.inl (by omega)
          · rcases hrange with hrange | hrange
            · exact Or.inl hrange
            · exact absurd hrange (by omega)
      · obtain ⟨hmk, hb1, hb2, hb3, hb4, -⟩ :=
          pawnSideMoves_mem p r c b (-1) m hin
        subst hmk
        exact ⟨⟨hb3, hb4⟩, Or.inl ⟨hb1, hb2⟩⟩
      · obtain ⟨hmk, hb1, hb2, hb3, hb4, -⟩ :=
          pawnSideMoves_mem p r c b 1 m hin
        subst hmk
        exact ⟨⟨hb3, hb4⟩, Or.inl ⟨hb1, hb2⟩⟩
  | rook =>
    simp only [getValidMoves, hk] at h
    cases h
    unfold straightMoves slide at hm
    rw [List.mem_append, List.mem_append, List.mem_append] at hm
    rcases hm with ((hin | hin) | hin) | hin <;>
      · have hb := slideFrom_bounds p.color r c b _ _ 7 1 m hin
        exact ⟨⟨hb.2.2.1, hb.2.2.2⟩, Or.inl ⟨hb.1, hb.2.1⟩⟩
  | bishop =>
    simp only [getValidMoves, hk] at h
    cases h
    unfold diagonalMoves slide at hm
    rw [List.mem_append, List.mem_append, List.mem_append] at hm
    rcases hm with ((hin | hin) | hin) | hin <;>
      · have hb := slideFrom_bounds p.color r c b _ _ 7 1 m hin
        exact ⟨⟨hb.2.2.1, hb.2.2.2⟩, Or.inl ⟨hb.1, hb.2.1⟩⟩
  | queen =>
    simp only [getValidMoves, hk] at h
    cases h
    unfold straightMoves diagonalMoves slide at hm
    rw [List.mem_append] at hm
    rcases hm with hin | hin <;>
    · rw [List.mem_append, List.mem_append, List.mem_append] at hin
      rcases hin with ((h2 | h2) | h2) | h2 <;>
        · have hb := slideFrom_bounds p.color r c b _ _ 7 1 m h2
          exact ⟨⟨hb.2.2.1, hb.2.2.2⟩, Or.inl ⟨hb.1, hb.2.1⟩⟩
  | knight =>
    simp only [getValidMoves, hk] at h
    cases h
    have hb := stepTargets_bounds p.color r c b knightOffsets m hm
    exact ⟨⟨hb.2.2.1, hb.2.2.2⟩, Or.inl ⟨hb.1, hb.2.1⟩⟩
  | king =>
    simp only [getValidMoves, hk] at h
    cases h
    have hb := stepTargets_bounds p.color r c b kingOffsets m hm
    exact ⟨⟨hb.2.2.1, hb.2.2.2⟩, Or.inl ⟨hb.1, hb.2.1⟩⟩

/-- Witness for `c6_amended`: the opening knight destination b1-a3. -/
theorem c6_amended_witness :
    ((0 : Int) ≤ (0 : Int) ∧ (0 : Int) < 8) ∧
    (((0 : Int) ≤ (5 : Int) ∧ (5 : Int) < 8) ∨
      ((5 : Int) = -1 ∧ Kind.knight = Kind.pawn ∧
        Color.white = Color.white ∧ (7 : Int) = 1 ∧ false = false)) :=
  c6_amended whiteKnight 7 1 initGame.board [(5, 0), (5, 2)] (5, 0)
    (by decide) (by decide) (by decide) (by decide) rfl (by decide)

/-- C7: a move request whose destination is not in the selected piece's
filtered legal-move set is rejected with the game state — board, flags,
turn, check status, game-over, last move and history — returned exactly as
it was. -/
theorem c7_reject_no_change (g : Game) (s e : Sq) (p : Piece) (l : List Sq)
    (hp : cell g.board s.1 s.2 = some p) (ht : p.color = g.turn)
    (hl : getLegalMoves g.board s p = .ok l) (he : e ∉ l) :
    movePiece g s e = .ok (false, g) := by
  unfold movePiece
  split
  · rfl
  · rename_i q heq
    rw [hp] at heq
    injection heq with hq
    subst hq
    rw [if_neg (show ¬(p.color ≠ g.turn) from fun hne => hne ht), hl, ok_bind,
      if_neg he]

/-- Witness for `c7_reject_no_change`: requesting the illegal pawn move
a2-d5 from the initial position is rejected and returns the game as-is. -/
theorem c7_witness :
    movePiece initGame (6, 0) (3, 3) = .ok (false, initGame) :=
  c7_reject_no_change initGame (6, 0) (3, 3) whitePawn [(5, 0), (4, 0)] rfl
    rfl rfl (by decide)

/-- C8: after every completed move the terminal conditions are evaluated for
`g.turn` (the color whose turn it now is; `move_piece` and `promote_pawn`
call `update_game_over` after setting the board and, for `move_piece`,
flipping the turn) in the priority order checkmate, stalemate, repetition;
and the repetition condition holds exactly when the history has at least 8
entries and some snapshot occurs at least 3 times in it, yielding a draw. -/
theorem c8_terminal_eval (g : Game) :
    (isDrawByRepetition g = true ↔
      8 ≤ g.positionHistory.length ∧
        ∃ snap ∈ g.positionHistory, 3 ≤ g.positionHistory.count snap) ∧
    ∀ (cm sm : Bool) (g2 : Game), isCheckmate g g.turn = .ok cm →
      isStalemate g g.turn = .ok sm → updateGameOver g = .ok g2 →
      (cm = true →
        g2 = { g with gameOver := true,
                      gameResult := some (GameResult.checkmateWin g.turn.other) }) ∧
      (cm = false → sm = true →
        g2 = { g with gameOver := true,
                      gameResult := some GameResult.stalemateDraw }) ∧
      (cm = false → sm = false → isDrawByRepetition g = true →
        g2 = { g with gameOver := true,
                      gameResult := some GameResult.repetitionDraw }) ∧
      (cm = false → sm = false → isDrawByRepetition g = false → g2 = g) := by
  constructor
  · unfold isDrawByRepetition
    by_cases hlen : g.positionHistory.length < 8
    · rw [if_pos hlen]
      constructor
      · intro h; cases h
      · rintro ⟨h8, -⟩; omega
    · rw [if_neg hlen]
      simp only [List.any_eq_true, decide_eq_true_eq]
      constructor
      · rintro ⟨x, hx, h3⟩
        exact ⟨by omega, ⟨x, hx, h3⟩⟩
      · rintro ⟨-, x, hx, h3⟩
        exact ⟨x, hx, h3⟩
  · intro cm sm g2 hcm hsm hgo
    unfold updateGameOver at hgo
    rw [hcm, ok_bind] at hgo
    cases cm with
    | true =>
      rw [if_pos rfl] at hgo
      cases hgo
      exact ⟨fun _ => rfl, fun hf => absurd hf (by decide),
        fun hf => absurd hf (by decide), fun hf => absurd hf (by decide)⟩
    | false =>
      rw [if_neg (by simp)] at hgo
      rw [hsm, ok_bind] at hgo
      cases sm with
      | true =>
        rw [if_pos rfl] at hgo
        cases hgo
        exact ⟨fun hf => absurd hf (by decide), fun _ _ => rfl,
          fun _ hf => absurd hf (by decide), fun _ hf => absurd hf (by decide)⟩
      | false =>
        rw [if_neg (by simp)] at hgo
        cases hrep : isDrawByRepetition g with
        | true =>
          rw [hrep, if_pos rfl] at hgo
          cases hgo
          exact ⟨fun hf => absurd hf (by decide),
            fun _ hf => absurd hf (by decide), fun _ _ _ => rfl,
            fun _ _ hf => absurd hf (by decide)⟩
        | false =>
          rw [hrep, if_neg (by simp)] at hgo
          cases hgo
          exact ⟨fun hf => absurd hf (by decide),
            fun _ hf => absurd hf (by decide),
            fun _ _ hf => absurd hf (by decide),
            fun _ _ _ => rfl⟩

/-- Witness for `c8_terminal_eval`: at the initial game neither checkmate,
stalemate nor repetition fires and `update_game_over` leaves the state
untouched. -/
theorem c8_witness :
    isDrawByRepetition initGame = false ∧
    updateGameOver initGame = .ok initGame ∧ initGame = initGame :=
  ⟨rfl, rfl,
    ((c8_terminal_eval initGame).2 false false initGame rfl rfl rfl).2.2.2 rfl
      rfl rfl⟩

/-- C10: from the standard starting position white has exactly 20 legal
moves — 16 pawn destinations and 4 knight destinations. -/
theorem c10_opening_moves :
    countLegalMoves initGame.board Color.white none = .ok 20 ∧
    countLegalMoves initGame.board Color.white (some Kind.pawn) = .ok 16 ∧
    countLegalMoves initGame.board Color.white (some Kind.knight) = .ok 4 :=
  ⟨rfl, rfl, rfl⟩

end Chess
